import Mathlib

/-!
Shallow embedding of the filename-to-identity core of `mediasorter.py`
(`sort_tv_file` and `sort_movie_file`).  Strings are Lean `String`s, whose
`data` field is the `List Char` the Python code scans; every regex the code
applies is embedded as an explicit character-level matcher with Python's
leftmost / greedy semantics (the digit classes involved are disjoint from the
neighbouring literal characters, so greedy scanning needs no backtracking).
Python exceptions that can escape these functions (`IndexError` from `[0]`
on an empty `re.findall` result, `ValueError` from `int()` on a non-numeric
string) are modelled with `Except PyErr`.  The external metadata answers
(TVDB / TMDB responses) are inputs to the reconcilers; transport failures or
non-success statuses, which the code treats exactly like an empty episode
list, are modelled as empty answer lists.  ASCII case conversion models
`str.lower()` on the ASCII tokens in play.
-/

set_option autoImplicit false

namespace Mediasorter

inductive PyErr where
  | indexError
  | valueError
  deriving DecidableEq

/-- `[0-9]` character class. -/
def isDigitC (c : Char) : Bool := '0' ≤ c && c ≤ '9'

/-- `\s` character class of Python `re` (ASCII part). -/
def isPySpace (c : Char) : Bool :=
  c = ' ' || c = '\t' || c = '\n' || c = '\r' || c = '\x0b' || c = '\x0c'

/-- Greedy `[0-9]+`-style split: maximal leading digit run and the rest. -/
def spanDigits (l : List Char) : List Char × List Char :=
  (l.takeWhile isDigitC, l.dropWhile isDigitC)

/-- Numeric value of a digit character, as in Python `int` on one digit. -/
def charDigitVal (c : Char) : Nat := c.toNat - '0'.toNat

/-- Value of a digit string, as in Python `int` on a digit run. -/
def digitsToNat (l : List Char) : Nat :=
  l.foldl (fun a c => 10 * a + charDigitVal c) 0

/-- Python `int()` on a string: optional sign followed by decimal digits;
anything else raises `ValueError` (whitespace and underscore forms never
occur in the strings this program feeds to `int`). -/
def pyInt (s : String) : Option Int :=
  match s.data with
  | [] => none
  | '-' :: rest =>
    if !rest.isEmpty && rest.all isDigitC then some (-(digitsToNat rest : Int)) else none
  | '+' :: rest =>
    if !rest.isEmpty && rest.all isDigitC then some ((digitsToNat rest : Int)) else none
  | l =>
    if l.all isDigitC then some ((digitsToNat l : Int)) else none

/-- Match of `[Ss][0-9]+[Ee][0-9]+` anchored at the head of the list,
returning the two digit groups and the remainder after the match. -/
def matchCombinedAt : List Char → Option (List Char × List Char × List Char)
  | [] => none
  | c :: rest =>
    if c = 'S' ∨ c = 's' then
      match spanDigits rest with
      | (d1, r1) =>
        if d1.isEmpty then none
        else
          match r1 with
          | [] => none
          | e :: r2 =>
            if e = 'E' ∨ e = 'e' then
              match spanDigits r2 with
              | (d2, r3) => if d2.isEmpty then none else some (d1, d2, r3)
            else none
    else none

/-- Leftmost match of `[Ss][0-9]+[Ee][0-9]+` in the list: the groups of
`re.findall('[Ss]([0-9]+)[Ee]([0-9]+)', el)[0]`, and `none` exactly when
`re.search` fails. -/
def firstCombined : List Char → Option (List Char × List Char)
  | [] => none
  | c :: rest =>
    match matchCombinedAt (c :: rest) with
    | some (d1, d2, _) => some (d1, d2)
    | none => firstCombined rest

/-- Match of `[Ss][0-9]+` anchored at the head of the list (digit group). -/
def matchSAt : List Char → Option (List Char)
  | [] => none
  | c :: rest =>
    if c = 'S' ∨ c = 's' then
      match spanDigits rest with
      | (d, _) => if d.isEmpty then none else some d
    else none

/-- Leftmost group of `re.findall('[Ss]([0-9]+)', el)`. -/
def firstSGroup : List Char → Option (List Char)
  | [] => none
  | c :: rest =>
    match matchSAt (c :: rest) with
    | some d => some d
    | none => firstSGroup rest

/-- Match of `[Ee][0-9]+` anchored at the head of the list (digit group). -/
def matchEAt : List Char → Option (List Char)
  | [] => none
  | c :: rest =>
    if c = 'E' ∨ c = 'e' then
      match spanDigits rest with
      | (d, _) => if d.isEmpty then none else some d
    else none

/-- Leftmost group of `re.findall('[Ee]([0-9]+)', el)`. -/
def firstEGroup : List Char → Option (List Char)
  | [] => none
  | c :: rest =>
    match matchEAt (c :: rest) with
    | some d => some d
    | none => firstEGroup rest

/-- `re.search('[Ee]pisode', el)`: the list contains `Episode` or `episode`
(only the leading letter is case-insensitive in the pattern). -/
def containsEpisodeWord : List Char → Bool
  | [] => false
  | c :: rest =>
    "Episode".data.isPrefixOf (c :: rest) || "episode".data.isPrefixOf (c :: rest) ||
      containsEpisodeWord rest

/-- First element of `re.findall(r'[0-9]+', el)`: the leftmost maximal digit
run, `none` when the list has no digit. -/
def firstDigitRun : List Char → Option (List Char)
  | [] => none
  | c :: rest =>
    if isDigitC c then some (c :: rest.takeWhile isDigitC) else firstDigitRun rest

/-- State of the `sort_tv_file` marker scan: `sxxeyy_idx`, `season_id`,
`episode_id`, `next_match_flag_episode`. -/
structure ScanSt where
  sxxeyy : Nat
  season : Nat
  episode : Nat
  nextFlag : Bool
  deriving DecidableEq

/-- Initial scan state of `sort_tv_file`. -/
def scanStart : ScanSt := ⟨0, 0, 0, false⟩

/-- Outcome of one loop body iteration: `break` out of the loop or go on. -/
inductive StepRes where
  | brk (st : ScanSt)
  | next (st : ScanSt)
  deriving DecidableEq

/-- One iteration of the `for idx, element in enumerate(split_filename)`
loop of `sort_tv_file` (lines 74-106), over the characters of one token. -/
def stepTok (idx : Nat) (st : ScanSt) (el : List Char) : Except PyErr StepRes :=
  match firstCombined el with
  | some (d1, d2) =>
    -- combined SXXEYY marker: set everything and break out of the loop
    .ok (.brk { st with sxxeyy := idx, season := digitsToNat d1, episode := digitsToNat d2 })
  | none =>
    -- `S<digits>`: seid is the group *string*, so `int(seid[0])` reads only
    -- its first character
    let st1 :=
      match firstSGroup el with
      | some g =>
        { st with sxxeyy := if st.sxxeyy < 1 then idx else st.sxxeyy,
                  season := charDigitVal (g.headD '0') }
      | none => st
    -- `E<digits>`: same first-character read
    let st2 :=
      match firstEGroup el with
      | some g =>
        { st1 with sxxeyy := if st1.sxxeyy < 1 then idx else st1.sxxeyy,
                   episode := charDigitVal (g.headD '0') }
      | none => st1
    -- literal `Episode` word; `re.findall(r'[0-9]+', element)[0]` raises
    -- IndexError when the token has no digit at all
    let afterWord : Except PyErr (ScanSt × Bool) :=
      if containsEpisodeWord el = true ∧ st2.sxxeyy < 1 then
        match firstDigitRun el with
        | none => .error .indexError
        | some run =>
          if run.isEmpty then
            -- `not runs[0]` with a nonempty digit run is always false, so
            -- this `continue` arm is unreachable
            .ok ({ st2 with sxxeyy := idx, nextFlag := true }, true)
          else
            .ok ({ st2 with sxxeyy := idx, episode := charDigitVal (run.headD '0') }, false)
      else .ok (st2, false)
    match afterWord with
    | .error e => .error e
    | .ok (st3, true) => .ok (.next st3)
    | .ok (st3, false) =>
      let nf : Except PyErr ScanSt :=
        if st3.nextFlag then
          match firstDigitRun el with
          | none => .error .indexError
          | some run => .ok { st3 with episode := charDigitVal (run.headD '0') }
        else .ok st3
      match nf with
      | .error e => .error e
      | .ok st4 =>
        if st4.episode > 0 then
          .ok (.brk (if st4.season = 0 then { st4 with season := 1 } else st4))
        else .ok (.next st4)

/-- Whether the loop ended by `break` or by running off the token list. -/
inductive ScanOut where
  | stopped (st : ScanSt)
  | ranOff (st : ScanSt)
  deriving DecidableEq

/-- The marker-scan loop of `sort_tv_file` from token index `idx` onward. -/
def scanList : Nat → ScanSt → List String → Except PyErr ScanOut
  | _, st, [] => .ok (.ranOff st)
  | idx, st, el :: rest =>
    match stepTok idx st el.data with
    | .error e => .error e
    | .ok (.brk st2) => .ok (.stopped st2)
    | .ok (.next st2) => scanList (idx + 1) st2 rest

/-- Result state of the whole marker scan of `sort_tv_file` on a token
sequence (the values of `sxxeyy_idx`, `season_id`, `episode_id` after the
loop), or the Python exception it raises. -/
def sortTvScan (tokens : List String) : Except PyErr ScanSt :=
  match scanList 0 scanStart tokens with
  | .error e => .error e
  | .ok (.stopped st) => .ok st
  | .ok (.ranOff st) => .ok st

/-- Any of the marker families of the scan applies to the token. -/
def hasMarker (s : String) : Bool :=
  (firstCombined s.data).isSome || (firstSGroup s.data).isSome ||
    (firstEGroup s.data).isSome || containsEpisodeWord s.data

/-! ### TV search-title derivation (lines 108-124) -/

/-- `re.sub(r'[Ss][0-9]+[Ee][0-9]+', '', word)`: remove every non-overlapping
leftmost match.  Fuel-driven so the definition stays structurally recursive;
each step consumes at least one character, so `fuel = length` is enough and
the fuel-exhausted arm is never taken. -/
def subCombinedAllGo : Nat → List Char → List Char
  | _, [] => []
  | 0, l => l
  | fuel + 1, c :: rest =>
    match matchCombinedAt (c :: rest) with
    | some (_, _, after) => subCombinedAllGo fuel after
    | none => c :: subCombinedAllGo fuel rest

def subCombinedAll (l : List Char) : List Char := subCombinedAllGo l.length l

/-- `re.search(r'^\(([0-9]{4})\)$', word)`: a parenthesised 4-digit year. -/
def isParenYear (l : List Char) : Bool :=
  match l with
  | '(' :: rest =>
    match spanDigits rest with
    | (d, r) => d.length == 4 && r == [')']
  | _ => false

/-- Python `str.lower()` (ASCII range, matching the tokens in play). -/
def lowerStr (s : String) : String := ⟨s.data.map Char.toLower⟩

/-- Python `sep.join(parts)`. -/
def joinSep (sep : String) : List String → String
  | [] => ""
  | [x] => x
  | x :: xs => x ++ sep ++ joinSep sep xs

/-- Dictionary / first-key lookup used for `search_overrides`,
`tv_name_overrides` and `movie_name_overrides`: replace the string when a
key equals it, keep it otherwise. -/
def lookupOverride (ov : List (String × String)) (k : String) : String :=
  match ov.find? (fun p => p.1 = k) with
  | some p => p.2
  | none => k

/-- Tokens whose words feed the series title: `split_filename[0:sxxeyy_idx]`,
falling back to `[0:sxxeyy_idx+1]` when that slice is empty. -/
def seriesTitleRaw (tokens : List String) (k : Nat) : List String :=
  let raw := tokens.take k
  if raw.isEmpty then tokens.take (k + 1) else raw

/-- Per-word fixups of the title loop: strip embedded `SXXEYY` markers, then
drop words that are exactly a parenthesised 4-digit year. -/
def tvTitleWords (tokens : List String) (k : Nat) : List String :=
  (seriesTitleRaw tokens k).foldr
    (fun w acc =>
      let w2 : String := if (firstCombined w.data).isSome then ⟨subCombinedAll w.data⟩ else w
      if isParenYear w2.data then acc else w2 :: acc) []

/-- `search_series_title` of `sort_tv_file`: lowercased title words joined
with spaces, then the search-override lookup. -/
def searchSeriesTitle (tokens : List String) (k : Nat)
    (searchOverrides : List (String × String)) : String :=
  lookupOverride searchOverrides (joinSep " " ((tvTitleWords tokens k).map lowerStr))

/-! ### TV candidate reconciliation and formatting (lines 156-219) -/

/-- One TVDB search candidate together with the answer of the episode lookup
scoped to the requested season/episode: `name` is
`found_episode["data"]["series"]["name"]` and `episodes` the names of
`found_episode["data"]["episodes"]`.  A failed lookup or a non-success
status, which the loop skips exactly like an empty episode list, is an
empty `episodes`. -/
structure TvCand where
  name : String
  episodes : List String
  deriving DecidableEq

/-- The series loop of `sort_tv_file`: first candidate whose episode lookup
returned at least one episode, with that first episode's name. -/
def reconcileTv (cands : List TvCand) : Option (String × String) :=
  match cands.find? (fun c => !c.episodes.isEmpty) with
  | some c =>
    match c.episodes with
    | e :: _ => some (c.name, e)
    | [] => none
  | none => none

/-- `str.replace('/', '-')`. -/
def replaceSlash (s : String) : String :=
  ⟨s.data.map (fun c => if c = '/' then '-' else c)⟩

/-- `str.replace('"', '')`. -/
def removeQuotes (s : String) : String := ⟨s.data.filter (fun c => c ≠ '"')⟩

/-- The `suffix_the` transform: `re.match('[Tt]he\s(.*)', title)` rewritten
to `group(1) + ', The'`; `.` does not cross a newline. -/
def theSuffixTransform (flag : Bool) (title : String) : String :=
  if flag then
    match title.data with
    | t :: 'h' :: 'e' :: w :: rest =>
      if (t = 'T' ∨ t = 't') && isPySpace w then
        (⟨rest.takeWhile (fun c => c ≠ '\n')⟩ : String) ++ ", The"
      else title
    | _ => title
  else title

/-- Python `'{:02d}'.format(n)` for a natural number. -/
def pad2 (n : Nat) : String := if n < 10 then "0" ++ toString n else toString n

/-- Destination directory and filename computed by `sort_tv_file` once the
tokens are fixed: marker scan, search-title derivation, series loop over the
provided candidate answers, overrides, sanitization and layout.  `none`
models the `return False, False` taken when no candidate has episodes. -/
def sortTvResolve (tokens : List String) (fileext dstpath : String)
    (searchOverrides : List (String × String)) (cands : List TvCand)
    (nameOverrides : List (String × String)) (suffixThe : Bool) :
    Except PyErr (Option (String × String)) :=
  match sortTvScan tokens with
  | .error e => .error e
  | .ok st =>
    let _searchTitle := searchSeriesTitle tokens st.sxxeyy searchOverrides
    match reconcileTv cands with
    | none => .ok none
    | some (sname, epname) =>
      let seriesTitle := lookupOverride nameOverrides sname
      let episodeTitle := removeQuotes (replaceSlash epname)
      let seriesTitle := theSuffixTransform suffixThe seriesTitle
      let dstPath :=
        dstpath ++ "/" ++ replaceSlash seriesTitle ++ "/Season " ++ toString st.season
      let dstName :=
        replaceSlash seriesTitle ++ " - S" ++ pad2 st.season ++ "E" ++ pad2 st.episode ++
          " - " ++ episodeTitle
      .ok (some (dstPath, dstName ++ fileext))

/-! ### Movie identity extraction (lines 244-263) -/

/-- `re.match('^\(?([0-9]{4})\)?$', element)`: the year digits when the token
is exactly four digits with an independently optional opening and closing
parenthesis, `none` otherwise. -/
def yearTokDigits (l : List Char) : Option (List Char) :=
  let l1 := match l with
    | '(' :: r => r
    | _ => l
  match spanDigits l1 with
  | (d, r) =>
    if d.length == 4 && (r == [] || r == [')']) then some d else none

/-- The year loop of `sort_movie_file`: every match overwrites `year_idx`
and `search_movie_year`, so the last matching token wins; with no match the
accumulator `(len(split_filename), "0000")` survives. -/
def movieYearScanGo (idx : Nat) (acc : Nat × String) : List String → Nat × String
  | [] => acc
  | t :: ts =>
    movieYearScanGo (idx + 1)
      (match yearTokDigits t.data with
       | some d => (idx, (⟨d⟩ : String))
       | none => acc) ts

/-- `(year_idx, search_movie_year)` after the year loop of `sort_movie_file`. -/
def movieYearScan (tokens : List String) : Nat × String :=
  movieYearScanGo 0 (tokens.length, "0000") tokens

/-- `raw_movie_title = split_filename[0:year_idx]`. -/
def movieTitleTokens (tokens : List String) : List String :=
  tokens.take (movieYearScan tokens).1

/-- `'+'.join([x.lower() for x in raw_movie_title])`, before the `The` strip. -/
def joinedMovieQuery (tokens : List String) : String :=
  joinSep "+" ((movieTitleTokens tokens).map lowerStr)

/-- Match of `[Tt]he\+` anchored at the head of the list. -/
def matchThePlusAt : List Char → Bool
  | a :: 'h' :: 'e' :: '+' :: _ => a == 'T' || a == 't'
  | _ => false

/-- `re.sub('[Tt]he\+', '', s, 1)`: remove the leftmost occurrence only. -/
def subFirstThePlus : List Char → List Char
  | [] => []
  | c :: rest =>
    if matchThePlusAt (c :: rest) then (c :: rest).drop 4
    else c :: subFirstThePlus rest

/-- `search_movie_title` of `sort_movie_file` right after the `The` strip
(the search-override lookup is applied to this string afterwards). -/
def searchMovieQuery (tokens : List String) : String :=
  ⟨subFirstThePlus (joinedMovieQuery tokens).data⟩

/-! ### Movie candidate reconciliation (lines 276-304) -/

/-- One TMDB search result: its `title` and its `release_date` field, the
latter `none` when the key is missing (`.get('release_date', '0000-00-00')`
then substitutes the default). -/
structure MovieCand where
  title : String
  release_date : Option String
  deriving DecidableEq

/-- `movie.get('release_date', '0000-00-00').split('-')[0]`. -/
def relYearRaw (c : MovieCand) : String :=
  ⟨(c.release_date.getD "0000-00-00").data.takeWhile (fun ch => ch ≠ '-')⟩

/-- The release year as the loop normalises it: empty becomes `"0000"`. -/
def normRelYear (c : MovieCand) : String :=
  let r := relYearRaw c
  if r = "" then "0000" else r

/-- The year-matching loop of `sort_movie_file` (lines 286-300), threading
`(search_movie_year, movie_title, movie_year)`.  `normRelYear` is the loop's
`if not release_year: release_year = '0000'` normalisation.  An exact or
wildcard match breaks; a `±1` match overwrites the accumulator and keeps
scanning; a non-numeric year makes `int()` raise `ValueError`. -/
def selectLoop : String → String → String → List MovieCand → Except PyErr (String × String)
  | _, t0, y0, [] => .ok (t0, y0)
  | target, t0, y0, c :: rest =>
    let ry := normRelYear c
    let tg := if target = "" then "0000" else target
    if tg = "0000" ∨ ry = tg then .ok (c.title, ry)
    else
      match pyInt ry, pyInt tg with
      | some r, some t =>
        if r = t + 1 ∨ r = t - 1 then selectLoop tg c.title ry rest
        else selectLoop tg t0 y0 rest
      | _, _ => .error .valueError

/-- `(movie_title, movie_year)` before the `'unnamed'` check: the
single-result short-circuit, else the year-matching loop started at the
`('unnamed', '0000')` sentinel. -/
def movieSelectPhase (cands : List MovieCand) (target : String) :
    Except PyErr (String × String) :=
  match cands with
  | [c] => .ok (c.title, relYearRaw c)
  | _ => selectLoop target "unnamed" "0000" cands

/-- Movie reconciliation including the `if movie_title == 'unnamed'` check:
`none` models the `return False, False` taken when no candidate matched. -/
def reconcileMovie (cands : List MovieCand) (target : String) :
    Except PyErr (Option (String × String)) :=
  match movieSelectPhase cands target with
  | .error e => .error e
  | .ok (t, y) => if t = "unnamed" then .ok none else .ok (some (t, y))

/-- Whether a candidate falls in the `±1` fallback branch of the loop for
this (already scanned) target year. -/
def plusMinusOne (target : String) (c : MovieCand) : Bool :=
  match pyInt (normRelYear c), pyInt target with
  | some r, some t => r == t + 1 || r == t - 1
  | _, _ => false

/-! ### Metainfo tags and movie formatting (lines 306-346) -/

/-- One `metainfo_map` rule: the configured regex, abstracted to the
predicate `re.fullmatch(key, element)` induces on tokens, and its tag label. -/
structure MetaRule where
  fullmatch : String → Bool
  label : String

/-- The tag-collection double loop of `sort_movie_file`, from an arbitrary
already-collected list: rules outermost, tokens innermost, appending a
rule's label when some token fullmatches it and the label is not in the
list yet. -/
def collectTagsFrom (rules : List MetaRule) (tokens : List String)
    (mi : List String) : List String :=
  rules.foldl
    (fun mi1 r =>
      tokens.foldl
        (fun mi2 el =>
          if r.fullmatch el = true ∧ r.label ∉ mi2 then mi2 ++ [r.label] else mi2)
        mi1)
    mi

/-- The tag list of `sort_movie_file`, starting from `metainfo = list()`. -/
def collectTags (rules : List MetaRule) (tokens : List String) : List String :=
  collectTagsFrom rules tokens []

/-- Destination directory and filename computed by `sort_movie_file` once
the tokens are fixed: year scan, query derivation, reconciliation over the
provided TMDB results, overrides, `suffix_the`, metainfo tagging and layout.
The movie title is *not* slash-sanitized anywhere here, faithfully to the
source. -/
def sortMovieResolve (tokens : List String) (fileext dstpath : String)
    (searchOverrides : List (String × String)) (cands : List MovieCand)
    (nameOverrides : List (String × String)) (suffixThe : Bool)
    (metainfoTag : Bool) (rules : List MetaRule) :
    Except PyErr (Option (String × String)) :=
  let target := (movieYearScan tokens).2
  let _query := lookupOverride searchOverrides (searchMovieQuery tokens)
  match reconcileMovie cands target with
  | .error e => .error e
  | .ok none => .ok none
  | .ok (some (t, y)) =>
    let title := lookupOverride nameOverrides t
    let title := theSuffixTransform suffixThe title
    let dstPath := dstpath ++ "/" ++ title ++ " (" ++ y ++ ")"
    let dstName :=
      if metainfoTag then
        title ++ " (" ++ y ++ ") - [" ++ joinSep " " (collectTags rules tokens) ++ "]"
      else title ++ " (" ++ y ++ ")"
    .ok (some (dstPath, dstName ++ fileext))

/-! ## Helper lemmas -/

theorem stepTok_combined (idx : Nat) (st : ScanSt) (el : List Char) (d1 d2 : List Char)
    (h : firstCombined el = some (d1, d2)) :
    stepTok idx st el =
      .ok (.brk { st with sxxeyy := idx, season := digitsToNat d1, episode := digitsToNat d2 }) := by
  unfold stepTok
  rw [h]

theorem scanList_append (l1 l2 : List String) :
    ∀ (idx : Nat) (st st' : ScanSt), scanList idx st l1 = .ok (.ranOff st') →
      scanList idx st (l1 ++ l2) = scanList (idx + l1.length) st' l2 := by
  induction l1 with
  | nil =>
    intro idx st st' h
    simp only [scanList, Except.ok.injEq, ScanOut.ranOff.injEq] at h
    subst h
    simp [scanList]
  | cons el rest ih =>
    intro idx st st' h
    cases hstep : stepTok idx st el.data with
    | error e =>
      rw [scanList, hstep] at h
      exact absurd h (by simp)
    | ok r =>
      cases r with
      | brk st2 =>
        rw [scanList, hstep] at h
        exact absurd h (by simp)
      | next st2 =>
        rw [scanList, hstep] at h
        have h2 := ih (idx + 1) st2 st' h
        have harith : idx + (el :: rest).length = idx + 1 + rest.length := by
          simp only [List.length_cons]
          omega
        rw [List.cons_append, scanList, hstep]
        show scanList (idx + 1) st2 (rest ++ l2) = scanList (idx + (el :: rest).length) st' l2
        rw [harith, h2]

theorem isSome_false_eq_none {α : Type} {o : Option α} (h : o.isSome = false) : o = none := by
  cases o
  · rfl
  · simp at h

theorem stepTok_inert (idx : Nat) (el : String) (h : hasMarker el = false) :
    stepTok idx scanStart el.data = .ok (.next scanStart) := by
  unfold hasMarker at h
  simp only [Bool.or_eq_false_iff] at h
  obtain ⟨⟨⟨h1, h2⟩, h3⟩, h4⟩ := h
  unfold stepTok
  rw [isSome_false_eq_none h1, isSome_false_eq_none h2, isSome_false_eq_none h3]
  simp [h4, scanStart]

theorem scanList_inert :
    ∀ (l : List String) (idx : Nat), (∀ s ∈ l, hasMarker s = false) →
      scanList idx scanStart l = .ok (.ranOff scanStart) := by
  intro l
  induction l with
  | nil => intro idx _; rfl
  | cons el rest ih =>
    intro idx h
    rw [scanList, stepTok_inert idx el (h el (List.mem_cons_self el rest))]
    exact ih (idx + 1) (fun s hs => h s (List.mem_cons_of_mem el hs))

/-! ## Claims -/

/-- C1, counterexample: the stem tokens `Part.E3.S02E05` contain the combined
token `S02E05` whose embedded digits are 2 and 5, yet the scan stops at the
earlier `E3` token and returns season 1, episode 3: the combined token does
not win regardless of the other tokens' content. -/
theorem c1_counterexample :
    sortTvScan ["Part", "E3", "S02E05"] = .ok ⟨1, 1, 3, false⟩ ∧
    firstCombined "S02E05".data = some (['0', '2'], ['0', '5']) ∧
    digitsToNat ['0', '2'] = 2 ∧ digitsToNat ['0', '5'] = 5 :=
  ⟨rfl, rfl, rfl, rfl⟩

/-- C1, amended: when the scan reaches a combined `S<digits>E<digits>` token
(its preceding tokens neither break out of the loop nor raise), the TV
extractor returns season and episode equal to the integer values of the
digits embedded in that token. -/
theorem c1_combined_token_wins (pre rest : List String) (tok : String) (st : ScanSt)
    (d1 d2 : List Char)
    (hpre : scanList 0 scanStart pre = .ok (.ranOff st))
    (htok : firstCombined tok.data = some (d1, d2)) :
    sortTvScan (pre ++ tok :: rest) =
      .ok { sxxeyy := pre.length, season := digitsToNat d1, episode := digitsToNat d2,
            nextFlag := st.nextFlag } := by
  unfold sortTvScan
  rw [scanList_append pre (tok :: rest) 0 scanStart st hpre, Nat.zero_add,
    scanList, stepTok_combined pre.length st tok.data d1 d2 htok]

/-- C1, witness for the amended theorem at the stem `Show.Name.S02E05.1080p`. -/
theorem c1_combined_token_wins_witness :
    sortTvScan ["Show", "Name", "S02E05", "1080p"] =
      .ok { sxxeyy := 2, season := 2, episode := 5, nextFlag := false } :=
  c1_combined_token_wins ["Show", "Name"] ["1080p"] "S02E05" scanStart
    ['0', '2'] ['0', '5'] rfl rfl

/-- C2, counterexample: on the markerless token sequence `Some.Random.Name`
the extractor does not fail at all; with a candidate whose episode lookup
answers, `sort_tv_file` even computes a destination path and filename. -/
theorem c2_counterexample :
    (["Some", "Random", "Name"].any hasMarker) = false ∧
    sortTvResolve ["Some", "Random", "Name"] ".mkv" "/dest" [] [⟨"ShowX", ["Pilot"]⟩] [] false
      = .ok (some ("/dest/ShowX/Season 0", "ShowX - S00E00 - Pilot.mkv")) :=
  ⟨by decide, rfl⟩

/-- C2, amended: on a token sequence with no marker of any family the scan
returns normally with season 0, episode 0 and split index 0 (the sentinel
initial state); there is no `NoMarker` failure and resolution proceeds. -/
theorem c2_markerless_scan (tokens : List String)
    (h : ∀ s ∈ tokens, hasMarker s = false) :
    sortTvScan tokens = .ok scanStart := by
  unfold sortTvScan
  rw [scanList_inert tokens 0 h]

/-- C2, witness for the amended theorem on the tokens of `Some.Random.Name`. -/
theorem c2_markerless_scan_witness :
    sortTvScan ["Some", "Random", "Name"] = .ok scanStart :=
  c2_markerless_scan ["Some", "Random", "Name"] (by decide)

/-- C4: on the tokens of `Show.Name.E05` the claimed season default to 1
does not happen: `int(seid[0])` reads only the first character `0` of the
episode digit group, the episode stays 0, the break never fires and the
scan ends with season 0. -/
theorem c4_first_digit_truncation :
    sortTvScan ["Show", "Name", "E05"] =
      .ok { sxxeyy := 2, season := 0, episode := 0, nextFlag := false } :=
  rfl

/-- C6: on the tokens of `Show.Name.Episode.5` the `Episode` token carries
no digits, so `re.findall(r'[0-9]+', element)[0]` raises `IndexError`
instead of deferring to the next token. -/
theorem c6_episode_word_crash :
    sortTvScan ["Show", "Name", "Episode", "5"] = .error .indexError :=
  rfl

theorem selectLoop_step_skip (tg t0 y0 : String) (c : MovieCand) (rest : List MovieCand)
    (hne : tg ≠ "") (h0 : tg ≠ "0000") (hcne : normRelYear c ≠ tg)
    (r t : Int) (hr : pyInt (normRelYear c) = some r) (ht : pyInt tg = some t) :
    selectLoop tg t0 y0 (c :: rest) =
      if r = t + 1 ∨ r = t - 1 then selectLoop tg c.title (normRelYear c) rest
      else selectLoop tg t0 y0 rest := by
  rw [selectLoop]
  simp only [if_neg hne, hr, ht]
  rw [if_neg]
  intro hor
  rcases hor with h | h
  · exact h0 h
  · exact hcne h

theorem plusMinusOne_eq_true_iff (tg : String) (c : MovieCand) (r t : Int)
    (hr : pyInt (normRelYear c) = some r) (ht : pyInt tg = some t) :
    plusMinusOne tg c = true ↔ (r = t + 1 ∨ r = t - 1) := by
  unfold plusMinusOne
  rw [hr, ht]
  simp

theorem selectLoop_no_pm (tg : String) (hne : tg ≠ "") (h0 : tg ≠ "0000") (t : Int)
    (ht : pyInt tg = some t) :
    ∀ (post : List MovieCand) (t0 y0 : String),
      (∀ d ∈ post, (pyInt (normRelYear d)).isSome ∧ normRelYear d ≠ tg) →
      (∀ d ∈ post, plusMinusOne tg d = false) →
      selectLoop tg t0 y0 post = .ok (t0, y0) := by
  intro post
  induction post with
  | nil => intro t0 y0 _ _; rfl
  | cons d rest ih =>
    intro t0 y0 hall hpm
    obtain ⟨hds, hdne⟩ := hall d (List.mem_cons_self d rest)
    obtain ⟨r, hr⟩ := Option.isSome_iff_exists.mp hds
    rw [selectLoop_step_skip tg t0 y0 d rest hne h0 hdne r t hr ht]
    have hpmd := hpm d (List.mem_cons_self d rest)
    rw [if_neg (fun hor => by
      rw [(plusMinusOne_eq_true_iff tg d r t hr ht).mpr hor] at hpmd
      exact absurd hpmd (by simp))]
    exact ih t0 y0 (fun e he => hall e (List.mem_cons_of_mem d he))
      (fun e he => hpm e (List.mem_cons_of_mem d he))

/-- C3, counterexample: target year 2000, two candidates both of which only
`±1`-match (1999 and 2001): the reconciler returns the *second* candidate,
not the first one encountered. -/
theorem c3_counterexample :
    reconcileMovie [⟨"A", some "1999-01-01"⟩, ⟨"B", some "2001-01-01"⟩] "2000"
      = .ok (some ("B", "2001")) ∧
    (("B", "2001") : String × String) ≠ ("A", "1999") :=
  ⟨rfl, by decide⟩

/-- C3, amended: when no candidate's (normalised) release year equals the
target year and every candidate year parses, the year-matching loop of
`sort_movie_file` returns the *last* `±1` candidate in provider order: each
later `±1` candidate overwrites the earlier ones. -/
theorem c3_last_fallback (pre post : List MovieCand) (c : MovieCand) (tg : String)
    (hne : tg ≠ "") (h0 : tg ≠ "0000") (t : Int) (ht : pyInt tg = some t)
    (hall : ∀ d ∈ pre ++ c :: post, (pyInt (normRelYear d)).isSome ∧ normRelYear d ≠ tg)
    (hc : plusMinusOne tg c = true)
    (hpost : ∀ d ∈ post, plusMinusOne tg d = false) :
    selectLoop tg "unnamed" "0000" (pre ++ c :: post) = .ok (c.title, normRelYear c) := by
  suffices haux : ∀ (pre2 : List MovieCand) (t0 y0 : String),
      (∀ d ∈ pre2 ++ c :: post, (pyInt (normRelYear d)).isSome ∧ normRelYear d ≠ tg) →
      selectLoop tg t0 y0 (pre2 ++ c :: post) = .ok (c.title, normRelYear c) by
    exact haux pre "unnamed" "0000" hall
  intro pre2
  induction pre2 with
  | nil =>
    intro t0 y0 hall2
    obtain ⟨hcs, hcne⟩ := hall2 c (List.mem_cons_self c post)
    obtain ⟨r, hr⟩ := Option.isSome_iff_exists.mp hcs
    rw [List.nil_append,
      selectLoop_step_skip tg t0 y0 c post hne h0 hcne r t hr ht,
      if_pos ((plusMinusOne_eq_true_iff tg c r t hr ht).mp hc)]
    exact selectLoop_no_pm tg hne h0 t ht post c.title (normRelYear c)
      (fun e he => hall2 e (List.mem_cons_of_mem c he)) hpost
  | cons p pre' ih =>
    intro t0 y0 hall2
    obtain ⟨hps, hpne⟩ := hall2 p (List.mem_cons_self p (pre' ++ c :: post))
    obtain ⟨r, hr⟩ := Option.isSome_iff_exists.mp hps
    rw [List.cons_append,
      selectLoop_step_skip tg t0 y0 p (pre' ++ c :: post) hne h0 hpne r t hr ht]
    have htail : ∀ d ∈ pre' ++ c :: post,
        (pyInt (normRelYear d)).isSome ∧ normRelYear d ≠ tg :=
      fun e he => hall2 e (List.mem_cons_of_mem p he)
    by_cases hpm : r = t + 1 ∨ r = t - 1
    · rw [if_pos hpm]
      exact ih p.title (normRelYear p) htail
    · rw [if_neg hpm]
      exact ih t0 y0 htail

/-- C3, witness for the amended theorem: 1999 then 2001 against target 2000
selects the later 2001 candidate. -/
theorem c3_last_fallback_witness :
    selectLoop "2000" "unnamed" "0000"
        [⟨"A", some "1999-01-01"⟩, ⟨"B", some "2001-01-01"⟩] = .ok ("B", "2001") := by
  have h := c3_last_fallback [⟨"A", some "1999-01-01"⟩] [] ⟨"B", some "2001-01-01"⟩ "2000"
    (by decide) (by decide) 2000 rfl (by decide) rfl (by intro d hd; cases hd)
  exact h

/-- C10: whenever the selection phase of `sort_movie_file` ends with the
title `'unnamed'` — in particular when the candidate it accepted is
literally titled `unnamed` — the reconciler reports no match at all. -/
theorem c10_unnamed_sentinel (cands : List MovieCand) (target t y : String)
    (h : movieSelectPhase cands target = .ok (t, y)) (hu : t = "unnamed") :
    reconcileMovie cands target = .ok none := by
  unfold reconcileMovie
  rw [h, hu]
  simp

/-- C10, witness: a single candidate titled `unnamed` with a valid release
year is short-circuit accepted, then rejected by the sentinel check. -/
theorem c10_unnamed_sentinel_witness :
    reconcileMovie [⟨"unnamed", some "2000-01-01"⟩] "2000" = .ok none :=
  c10_unnamed_sentinel [⟨"unnamed", some "2000-01-01"⟩] "2000" "unnamed" "2000" rfl rfl

theorem movieYearScanGo_all_none :
    ∀ (l : List String) (idx : Nat) (acc : Nat × String),
      (∀ u ∈ l, yearTokDigits u.data = none) → movieYearScanGo idx acc l = acc := by
  intro l
  induction l with
  | nil => intro idx acc _; rfl
  | cons u us ih =>
    intro idx acc h
    rw [movieYearScanGo, h u (List.mem_cons_self u us)]
    exact ih (idx + 1) acc (fun v hv => h v (List.mem_cons_of_mem u hv))

theorem movieYearScanGo_last :
    ∀ (pre : List String) (idx : Nat) (acc : Nat × String) (t : String)
      (post : List String) (d : List Char),
      yearTokDigits t.data = some d → (∀ u ∈ post, yearTokDigits u.data = none) →
      movieYearScanGo idx acc (pre ++ t :: post) = (idx + pre.length, (⟨d⟩ : String)) := by
  intro pre
  induction pre with
  | nil =>
    intro idx acc t post d ht hpost
    rw [List.nil_append, movieYearScanGo, ht,
      movieYearScanGo_all_none post (idx + 1) (idx, (⟨d⟩ : String)) hpost]
    simp
  | cons p pre' ih =>
    intro idx acc t post d ht hpost
    rw [List.cons_append, movieYearScanGo,
      ih (idx + 1) _ t post d ht hpost]
    simp only [List.length_cons, Prod.mk.injEq, and_true]
    omega

/-- C8: the movie year scan records the *last* token matching the year
pattern `^\(?([0-9]{4})\)?$` together with its index, the title tokens are
exactly the tokens strictly before that index, and with no matching token
the split index is the end of the sequence and the year the `"0000"`
sentinel. -/
theorem c8_last_year_token :
    (∀ tokens : List String,
        (∀ u ∈ tokens, yearTokDigits u.data = none) →
        movieYearScan tokens = (tokens.length, "0000") ∧
          movieTitleTokens tokens = tokens) ∧
    (∀ (pre : List String) (t : String) (post : List String) (d : List Char),
        yearTokDigits t.data = some d → (∀ u ∈ post, yearTokDigits u.data = none) →
        movieYearScan (pre ++ t :: post) = (pre.length, (⟨d⟩ : String)) ∧
          movieTitleTokens (pre ++ t :: post) = pre) := by
  constructor
  · intro tokens h
    have hscan : movieYearScan tokens = (tokens.length, "0000") :=
      movieYearScanGo_all_none tokens 0 (tokens.length, "0000") h
    refine ⟨hscan, ?_⟩
    unfold movieTitleTokens
    rw [hscan]
    exact List.take_length tokens
  · intro pre t post d ht hpost
    have hscan : movieYearScan (pre ++ t :: post) = (pre.length, (⟨d⟩ : String)) := by
      have h := movieYearScanGo_last pre 0 ((pre ++ t :: post).length, "0000") t post d ht hpost
      rw [Nat.zero_add] at h
      exact h
    refine ⟨hscan, ?_⟩
    unfold movieTitleTokens
    rw [hscan]
    exact List.take_left pre (t :: post)

/-- C8, witness: the spec's own example stem `2001.A.Space.Odyssey.1968.Bluray`
picks the later `1968`, and a year-free sequence keeps the sentinel. -/
theorem c8_last_year_token_witness :
    movieYearScan ["2001", "A", "Space", "Odyssey", "1968", "Bluray"] = (4, "1968") ∧
    movieTitleTokens ["2001", "A", "Space", "Odyssey", "1968", "Bluray"]
      = ["2001", "A", "Space", "Odyssey"] ∧
    movieYearScan ["Some", "Movie"] = (2, "0000") := by
  have h1 := c8_last_year_token.2 ["2001", "A", "Space", "Odyssey"] "1968" ["Bluray"]
    ['1', '9', '6', '8'] rfl (by decide)
  have h2 := c8_last_year_token.1 ["Some", "Movie"] (by decide)
  exact ⟨h1.1, h1.2, h2.1⟩

theorem subFirstThePlus_no_match :
    ∀ l : List Char, (∀ i, i < l.length → matchThePlusAt (l.drop i) = false) →
      subFirstThePlus l = l := by
  intro l
  induction l with
  | nil => intro _; rfl
  | cons c rest ih =>
    intro h
    have h0 : matchThePlusAt (c :: rest) = false := by
      have := h 0 (by simp)
      simpa using this
    rw [subFirstThePlus, if_neg (by simp [h0])]
    have hrest := ih (fun i hi => by
      have := h (i + 1) (by simpa using Nat.succ_lt_succ hi)
      simpa using this)
    rw [hrest]

theorem subFirstThePlus_first (post : List Char) :
    ∀ pre : List Char,
      (∀ i, i < pre.length →
        matchThePlusAt ((pre ++ 't' :: 'h' :: 'e' :: '+' :: post).drop i) = false) →
      subFirstThePlus (pre ++ 't' :: 'h' :: 'e' :: '+' :: post) = pre ++ post := by
  intro pre
  induction pre with
  | nil =>
    intro _
    rw [List.nil_append, subFirstThePlus, if_pos (by rfl)]
    rfl
  | cons c pre' ih =>
    intro h
    have h0 : matchThePlusAt (c :: (pre' ++ 't' :: 'h' :: 'e' :: '+' :: post)) = false := by
      have := h 0 (by simp)
      simpa using this
    rw [List.cons_append, subFirstThePlus, if_neg (by simp [h0])]
    have hrest := ih (fun i hi => by
      have := h (i + 1) (by simpa using Nat.succ_lt_succ hi)
      simpa using this)
    rw [hrest, List.cons_append]

/-- C5, counterexample: in `Kill.The.Messenger.2014` the `the` is not in the
leading position of the joined query `kill+the+messenger`, yet the strip
removes it and the query becomes `kill+messenger`. -/
theorem c5_counterexample :
    joinedMovieQuery ["Kill", "The", "Messenger", "2014"] = "kill+the+messenger" ∧
    searchMovieQuery ["Kill", "The", "Messenger", "2014"] = "kill+messenger" ∧
    "kill+messenger" ≠ "kill+the+messenger" :=
  ⟨rfl, rfl, by decide⟩

/-- C5, amended: the query is the lowercased title tokens joined with `+`
with exactly one replacement applied — the *first occurrence anywhere* of
`the+` (`The+`/`the+`, and only lowercase can occur in the lowercased join)
is removed, whether or not it is leading; with no occurrence the join is
returned unchanged.  The display title is produced by the reconciler from
the provider candidates and is untouched by this strip. -/
theorem c5_first_occurrence_strip :
    (∀ tokens : List String,
        (∀ i, i < (joinedMovieQuery tokens).data.length →
          matchThePlusAt ((joinedMovieQuery tokens).data.drop i) = false) →
        searchMovieQuery tokens = joinedMovieQuery tokens) ∧
    (∀ (tokens : List String) (pre post : List Char),
        (joinedMovieQuery tokens).data = pre ++ 't' :: 'h' :: 'e' :: '+' :: post →
        (∀ i, i < pre.length →
          matchThePlusAt ((pre ++ 't' :: 'h' :: 'e' :: '+' :: post).drop i) = false) →
        (searchMovieQuery tokens).data = pre ++ post) := by
  constructor
  · intro tokens h
    unfold searchMovieQuery
    rw [subFirstThePlus_no_match _ h]
  · intro tokens pre post hdec h
    show (subFirstThePlus (joinedMovieQuery tokens).data) = pre ++ post
    rw [hdec, subFirstThePlus_first post pre h]

/-- C5, witness: the non-leading strip on `Kill.The.Messenger.2014` and the
no-occurrence case on `Alien.1979`. -/
theorem c5_first_occurrence_strip_witness :
    (searchMovieQuery ["Kill", "The", "Messenger", "2014"]).data
        = "kill+".data ++ "messenger".data ∧
    searchMovieQuery ["Alien", "1979"] = joinedMovieQuery ["Alien", "1979"] := by
  constructor
  · exact c5_first_occurrence_strip.2 ["Kill", "The", "Messenger", "2014"]
      "kill+".data "messenger".data rfl (by decide)
  · exact c5_first_occurrence_strip.1 ["Alien", "1979"] (by decide)

/-- C7: the movie formatter never slash-sanitizes the reconciled title: with
the single candidate `Face/Off (1997)` the computed *filename* itself
contains a `/`, contradicting the claimed `/`→`-` replacement (the TV
formatter does apply `replace('/', '-')`; the movie branch does not). -/
theorem c7_movie_slash_not_sanitized :
    sortMovieResolve ["Face", "Off", "1997"] ".mkv" "/dest" []
        [⟨"Face/Off", some "1997-06-27"⟩] [] false false []
      = .ok (some ("/dest/Face/Off (1997)", "Face/Off (1997).mkv")) ∧
    ("Face/Off (1997).mkv".data.contains '/') = true :=
  ⟨rfl, by decide⟩

theorem collectTags_inner (r : MetaRule) (tokens : List String) :
    ∀ mi : List String,
      tokens.foldl
          (fun mi2 el =>
            if r.fullmatch el = true ∧ r.label ∉ mi2 then mi2 ++ [r.label] else mi2)
          mi
        = if tokens.any r.fullmatch = true ∧ r.label ∉ mi then mi ++ [r.label] else mi := by
  induction tokens with
  | nil => intro mi; simp
  | cons u us ih =>
    intro mi
    rw [List.foldl_cons]
    by_cases hm : r.fullmatch u = true
    · by_cases hin : r.label ∈ mi
      · rw [if_neg (fun hc => hc.2 hin), ih mi,
          if_neg (fun hc => hc.2 hin), if_neg (fun hc => hc.2 hin)]
      · rw [if_pos ⟨hm, hin⟩, ih (mi ++ [r.label]),
          if_neg (fun hc => hc.2 (by simp)), if_pos ⟨by simp [hm], hin⟩]
    · rw [if_neg (fun hc => hm hc.1), ih mi]
      have hany : (u :: us).any r.fullmatch = us.any r.fullmatch := by
        simp [List.any_cons, Bool.eq_false_iff.mpr hm]
      rw [hany]

theorem collectTagsFrom_spec (tokens : List String) :
    ∀ (rules : List MetaRule) (mi : List String),
      ∃ ext : List String,
        collectTagsFrom rules tokens mi = mi ++ ext ∧
        ext.Sublist (rules.map MetaRule.label) ∧ ext.Nodup ∧ ∀ l ∈ ext, l ∉ mi := by
  intro rules
  induction rules with
  | nil =>
    intro mi
    exact ⟨[], by simp [collectTagsFrom], by simp, by simp, by simp⟩
  | cons r rs ih =>
    intro mi
    have hstep : collectTagsFrom (r :: rs) tokens mi
        = collectTagsFrom rs tokens
            (if tokens.any r.fullmatch = true ∧ r.label ∉ mi then mi ++ [r.label] else mi) := by
      unfold collectTagsFrom
      rw [List.foldl_cons, collectTags_inner r tokens mi]
    by_cases hcond : tokens.any r.fullmatch = true ∧ r.label ∉ mi
    · rw [if_pos hcond] at hstep
      obtain ⟨ext, heq, hsub, hnd, hdisj⟩ := ih (mi ++ [r.label])
      refine ⟨r.label :: ext, ?_, ?_, ?_, ?_⟩
      · rw [hstep, heq]
        simp
      · exact List.Sublist.cons₂ r.label hsub
      · refine List.nodup_cons.mpr ⟨?_, hnd⟩
        intro hmem
        exact hdisj r.label hmem (by simp)
      · intro l hl
        rcases List.mem_cons.mp hl with hl | hl
        · rw [hl]; exact hcond.2
        · intro hlin
          exact hdisj l hl (by simp [hlin])
    · rw [if_neg hcond] at hstep
      obtain ⟨ext, heq, hsub, hnd, hdisj⟩ := ih mi
      exact ⟨ext, by rw [hstep, heq],
        hsub.trans (List.sublist_cons_self r.label (rs.map MetaRule.label)), hnd, hdisj⟩

/-- C9: the assembled metainfo tag list is a sublist of the rule labels in
rule-list order — its order is the rules' order, not the matching tokens'
order — and it never lists a label twice, however many tokens match. -/
theorem c9_tag_order_and_uniqueness (rules : List MetaRule) (tokens : List String) :
    (collectTags rules tokens).Nodup ∧
    (collectTags rules tokens).Sublist (rules.map MetaRule.label) := by
  obtain ⟨ext, heq, hsub, hnd, _⟩ := collectTagsFrom_spec tokens rules []
  unfold collectTags
  rw [heq, List.nil_append]
  exact ⟨hnd, hsub⟩

end Mediasorter
